import Mathlib

/-!
Shallow embedding of the approach-and-capture control loop of the
Duckietown object-delivery repository.

Source files embedded:
* `src/packages/pathplanning/src/pathplanning_functions.py`
* `src/packages/object_detection/src/object_detection_node_y.py`

Python floats are modelled as rationals (`ℚ`); the detection-list
encoding is the flat numeric sequence the source indexes directly
(`duckiedata[0]` is the count, followed by `(r, theta, id)` triples).
-/

namespace Duckietown

/-! ## Constants from `pathplanning_functions.py` -/

def HEADING_KP : ℚ := 25/100
def HEADING_KI : ℚ := 4/10
def HEADING_KD : ℚ := 27/1000
def INT_MAX : ℚ := 4/100
def OMEGA_0 : ℚ := 3/10
def OMEGA_SCALING : ℚ := 1
def OMEGA_OFFSET : ℚ := 1/10
def V_0 : ℚ := 2/100

/-! ## Data model -/

inductive State where
  | SCANNING
  | IDENTIFIED
  | CAPTURED
  | DELIVERING
  | DELIVERED
deriving Repr, DecidableEq

/-- The two command fields of `Twist2DStamped` that the source assigns
(`v`, `omega`); the header carries no control information. -/
structure Twist2DStamped where
  v : ℚ
  omega : ℚ
deriving Repr, DecidableEq

/-! ## `PIDController` (pathplanning_functions.py, lines 119-177) -/

def PIDController (v_0 theta_ref theta_hat prev_e prev_int delta_t : ℚ)
    (gains : ℚ × ℚ × ℚ) : ℚ × ℚ × ℚ × ℚ × ℚ :=
  let e := theta_ref - theta_hat
  let e_int0 := prev_int + e * delta_t
  let e_int := max (min e_int0 INT_MAX) (-INT_MAX)
  let e_der := (e - prev_e) / delta_t
  let Kp := gains.1
  let Ki := gains.2.1
  let Kd := gains.2.2
  let omega_p := Kp * e
  let omega_i := Ki * e_int
  let omega_d := Kd * e_der
  let omega0 := omega_p + omega_i + omega_d
  let omega :=
    if omega0 > 0 then omega0 + OMEGA_OFFSET
    else if omega0 < 0 then omega0 - OMEGA_OFFSET
    else omega0
  (v_0, omega, e, e_int, e_der)

/-- Model of the Python built-in `round` (round half to even), used by the source
as `round(duckiedata[0])` on the detection count. -/
def pyRound (x : ℚ) : ℤ :=
  let n := ⌊x⌋
  let frac := x - n
  if frac < 1/2 then n
  else if 1/2 < frac then n + 1
  else if n % 2 = 0 then n else n + 1

/-! ## `scanning` (pathplanning_functions.py, lines 33-47) -/

def scanning (car_control_msg : Twist2DStamped) (new_state : State)
    (duckiedata : List ℚ) (current_obj : ℚ) (omega : ℚ) :
    Twist2DStamped × State :=
  (List.range (pyRound (duckiedata.getD 0 0)).toNat).foldl
    (fun acc i =>
      if duckiedata.getD (i*3+3) 0 = current_obj then
        ({ v := 0, omega := 0 }, State.IDENTIFIED)
      else acc)
    ({ car_control_msg with v := 0, omega := omega }, new_state)

/-! ## `approach` (pathplanning_functions.py, lines 50-108)

The Python loop mutates the local variables `car_control_msg`,
`new_state`, `v`, `e`, `e_int`, `no_det_count`, `close_count` and
`obj_ids`; we carry them in an accumulator record through a fold over
the same index range. -/

structure ApproachAcc where
  car_control_msg : Twist2DStamped
  new_state : State
  v : ℚ
  e : ℚ
  e_int : ℚ
  no_det_count : ℕ
  close_count : ℕ
  obj_ids : List ℚ
deriving Repr, DecidableEq

def approachStep (duckiedata : List ℚ) (current_obj prev_e prev_int delta_t : ℚ)
    (delivery : Bool) (acc : ApproachAcc) (i : ℕ) : ApproachAcc :=
  if duckiedata.getD (i*3+3) 0 = current_obj then
    let r := duckiedata.getD (i*3+1) 0
    let theta := duckiedata.getD (i*3+2) 0
    let theta_r : ℚ := 0
    let gains := (HEADING_KP, HEADING_KI, HEADING_KD)
    let pid := PIDController acc.v theta_r theta prev_e prev_int delta_t gains
    let v := pid.1
    let omega := pid.2.1
    let base : ApproachAcc :=
      { acc with obj_ids := acc.obj_ids ++ [current_obj], no_det_count := 0,
                 v := v, e := pid.2.2.1, e_int := pid.2.2.2.1 }
    let r_0 : ℚ := if delivery = true then 2/10 else 16/100
    if r > 25/100 then
      { base with close_count := 0,
                  car_control_msg := { v := v, omega := omega * OMEGA_SCALING } }
    else if r ≤ 25/100 ∧ r > r_0 then
      { base with close_count := 0,
                  car_control_msg := { v := 8/10 * v, omega := omega * OMEGA_SCALING } }
    else
      let close_count :=
        if |omega * OMEGA_SCALING| < OMEGA_OFFSET + 65/1000
        then base.close_count + 1 else base.close_count
      let base' :=
        { base with close_count := close_count,
                    car_control_msg := { v := 0, omega := omega * OMEGA_SCALING } }
      if close_count ≥ 8 then
        { base' with close_count := 0, new_state := State.CAPTURED }
      else base'
  else acc

def approach (car_control_msg : Twist2DStamped) (new_state : State)
    (duckiedata : List ℚ) (current_obj prev_e prev_int delta_t : ℚ)
    (no_det_count close_count : ℕ) (v : ℚ) (delivery : Bool) :
    Twist2DStamped × State × ℚ × ℚ × ℕ × ℕ :=
  let init : ApproachAcc :=
    { car_control_msg := car_control_msg, new_state := new_state, v := v,
      e := prev_e, e_int := prev_int, no_det_count := no_det_count,
      close_count := close_count, obj_ids := [] }
  let acc := (List.range (pyRound (duckiedata.getD 0 0)).toNat).foldl
    (approachStep duckiedata current_obj prev_e prev_int delta_t delivery) init
  if current_obj ∈ acc.obj_ids then
    (acc.car_control_msg, acc.new_state, acc.e, acc.e_int,
     acc.no_det_count, acc.close_count)
  else
    let no_det_count' := acc.no_det_count + 1
    let msg : Twist2DStamped := { acc.car_control_msg with v := 0, omega := 0 }
    if no_det_count' ≥ 4 then
      (msg, State.SCANNING, acc.e, acc.e_int, 0, acc.close_count)
    else
      (msg, acc.new_state, acc.e, acc.e_int, no_det_count', acc.close_count)

/-! ## `delivered` (pathplanning_functions.py, lines 111-116) -/

def delivered (car_control_msg : Twist2DStamped) (new_state : State) :
    Twist2DStamped × State :=
  ({ car_control_msg with v := 0, omega := 0 }, new_state)

/-! ## Object-detection node (`object_detection_node_y.py`)

The mutable node fields that matter to the control behaviour are
`initialized`, `avoid_duckies` and `frame_id`; the configured speed
`self.v` and the frame-skip count are constants set at construction.
The filter predicates `filter_by_bboxes` / `filter_by_classes` /
`filter_by_scores` come from the external `integration_activity`
module and are parameters of the model. -/

structure NodeState where
  initialized : Bool
  avoid_duckies : Bool
  frame_id : ℕ
deriving Repr, DecidableEq

/-- Embeds `pub_car_commands` (object_detection_node_y.py, lines 148-159):
the published command, as a function of the `stop` flag and the
configured speed `self.v`. -/
def pub_car_commands (stop : Bool) (v : ℚ) : Twist2DStamped :=
  { v := if stop then 0 else v, omega := 0 }

/-- Embeds `det2bool` (object_detection_node_y.py, lines 135-146): indices
passing each filter, intersected; `true` iff the intersection is
non-empty. -/
def det2bool {α β γ : Type} (filter_by_bboxes : α → Bool)
    (filter_by_classes : β → Bool) (filter_by_scores : γ → Bool)
    (bboxes : List α) (classes : List β) (scores : List γ) : Bool :=
  let box_ids := (bboxes.enum.filter fun p => filter_by_bboxes p.2).map Prod.fst
  let cla_ids := (classes.enum.filter fun p => filter_by_classes p.2).map Prod.fst
  let sco_ids := (scores.enum.filter fun p => filter_by_scores p.2).map Prod.fst
  let box_cla_ids := box_ids.inter cla_ids
  let box_cla_sco_ids := sco_ids.inter box_cla_ids
  decide (box_cla_sco_ids.length > 0)

/-- The two event sources feeding the node: the episode-start topic
and the camera topic.  An image event carries whether it decodes and
the inference wrapper's three parallel output sequences. -/
inductive PerceptionEvent (α β γ : Type) where
  | episode_start : PerceptionEvent α β γ
  | image (decodable : Bool) (bboxes : List α) (classes : List β)
      (scores : List γ) : PerceptionEvent α β γ
deriving DecidableEq

def PerceptionEvent.isImage {α β γ : Type} : PerceptionEvent α β γ → Bool
  | .episode_start => false
  | .image _ _ _ _ => true

/-- One callback invocation: `cb_episode_start` (lines 77-79) or
`image_cb` (lines 81-133).  Returns the new node state and the list of
commands published during the callback. -/
def nodeStep {α β γ : Type} (filter_by_bboxes : α → Bool)
    (filter_by_classes : β → Bool) (filter_by_scores : γ → Bool)
    (N : ℕ) (v : ℚ) (s : NodeState) (ev : PerceptionEvent α β γ) :
    NodeState × List Twist2DStamped :=
  match ev with
  | .episode_start =>
      ({ s with avoid_duckies := false }, [pub_car_commands true v])
  | .image decodable bboxes classes scores =>
      if s.initialized = false then
        (s, [pub_car_commands true v])
      else
        let fid := (s.frame_id + 1) % (1 + N)
        if fid ≠ 0 then
          ({ s with frame_id := fid }, [pub_car_commands s.avoid_duckies v])
        else if decodable = false then
          ({ s with frame_id := fid }, [])
        else
          let detection := det2bool filter_by_bboxes filter_by_classes
            filter_by_scores bboxes classes scores
          let avoid := s.avoid_duckies || detection
          ({ s with frame_id := fid, avoid_duckies := avoid },
           [pub_car_commands avoid v])

/-- Event loop: process a list of events in arrival order, collecting
all published commands. -/
def runNode {α β γ : Type} (filter_by_bboxes : α → Bool)
    (filter_by_classes : β → Bool) (filter_by_scores : γ → Bool)
    (N : ℕ) (v : ℚ) (s : NodeState) :
    List (PerceptionEvent α β γ) → NodeState × List Twist2DStamped
  | [] => (s, [])
  | ev :: evs =>
      let r := nodeStep filter_by_bboxes filter_by_classes filter_by_scores
        N v s ev
      let rest := runNode filter_by_bboxes filter_by_classes filter_by_scores
        N v r.1 evs
      (rest.1, r.2 ++ rest.2)

/-- Iterated PID calls: the caller threads the returned `e` / `e_int`
into the `prev_e` / `prev_int` of the next call, as `approach` does across
frames.  Returns the final `(prev_e, prev_int)` pair. -/
def pidIter (v_0 theta_ref delta_t : ℚ) (gains : ℚ × ℚ × ℚ)
    (thetas : List ℚ) (init_e init_int : ℚ) : ℚ × ℚ :=
  thetas.foldl
    (fun st theta =>
      let out := PIDController v_0 theta_ref theta st.1 st.2 delta_t gains
      (out.2.2.1, out.2.2.2.1))
    (init_e, init_int)

/-! ## Spec-side definitions for refinement claims -/

/-- Spec-side clamp, written as the spec states it:
`clamp(x, lo, hi)`. -/
def clampSpec (lo hi x : ℚ) : ℚ :=
  if x < lo then lo else if x > hi then hi else x

/-- Spec-side sign function: `sign(x)` with `sign(0) = 0`. -/
def signSpec (x : ℚ) : ℚ :=
  if x > 0 then 1 else if x < 0 then -1 else 0

/-- Spec-side PID controller, following the formulas of the spec (section
4.2) literally: the integral clamp written with the literal bounds
`±0.04` and the friction offset written as `sign(omega)*omega_offset`. -/
def PIDSpec (v_0 theta_ref theta_hat prev_e prev_int delta_t Kp Ki Kd : ℚ) :
    ℚ × ℚ × ℚ × ℚ × ℚ :=
  let e := theta_ref - theta_hat
  let e_int := clampSpec (-(4/100)) (4/100) (prev_int + e * delta_t)
  let e_der := (e - prev_e) / delta_t
  let omega0 := Kp * e + Ki * e_int + Kd * e_der
  let omega := omega0 + signSpec omega0 * OMEGA_OFFSET
  (v_0, omega, e, e_int, e_der)

/-- Spec-side Command Arbiter, following the contract of the spec (section
4.4): pass the proposed command through unless the latch is set. -/
def arbiterSpec (latch : Bool) (proposed : Twist2DStamped) : Twist2DStamped :=
  if latch then { v := 0, omega := 0 } else proposed

/-! ## Generic fold helpers -/

theorem foldl_fixed {α β : Type} (f : β → α → β) (l : List α) (b : β)
    (h : ∀ a ∈ l, ∀ acc, f acc a = acc) : l.foldl f b = b := by
  induction l generalizing b with
  | nil => rfl
  | cons x xs ih =>
      rw [List.foldl_cons, h x (List.mem_cons_self x xs)]
      exact ih b fun a ha acc => h a (List.mem_cons_of_mem x ha) acc

theorem foldl_preserves {α β : Type} (f : β → α → β) (P : β → Prop)
    (hpres : ∀ acc a, P acc → P (f acc a)) :
    ∀ (l : List α) (b : β), P b → P (l.foldl f b) := by
  intro l
  induction l with
  | nil => intro b hb; exact hb
  | cons x xs ih => intro b hb; exact ih (f b x) (hpres b x hb)

theorem foldl_reaches {α β : Type} (f : β → α → β) (P : β → Prop) (Q : α → Prop)
    (hpres : ∀ acc a, P acc → P (f acc a))
    (hest : ∀ acc a, Q a → P (f acc a)) :
    ∀ (l : List α) (b : β), (∃ a ∈ l, Q a) → P (l.foldl f b) := by
  intro l
  induction l with
  | nil =>
      rintro b ⟨a, ha, -⟩
      exact absurd ha (List.not_mem_nil a)
  | cons x xs ih =>
      rintro b ⟨a, ha, hQ⟩
      rw [List.foldl_cons]
      rcases List.mem_cons.mp ha with h | h
      · exact foldl_preserves f P hpres xs (f b x) (hest b x (h ▸ hQ))
      · exact ih (f b x) ⟨a, h, hQ⟩

/-! ## Evaluation lemmas for `pyRound` and concrete frames -/

theorem pyRound_zero : pyRound 0 = 0 := by norm_num [pyRound]

theorem pyRound_one : pyRound 1 = 1 := by norm_num [pyRound]

theorem noMatch_nil_frame (obj : ℚ) :
    ∀ i < (pyRound (([0] : List ℚ).getD 0 0)).toNat,
      ([0] : List ℚ).getD (i*3+3) 0 ≠ obj := by
  rw [show (([0] : List ℚ).getD 0 0) = 0 from rfl, pyRound_zero]
  intro i hi
  exact absurd hi (by simp)

theorem noMatch_single_frame (r theta x obj : ℚ) (hx : x ≠ obj) :
    ∀ i < (pyRound (([1, r, theta, x] : List ℚ).getD 0 0)).toNat,
      ([1, r, theta, x] : List ℚ).getD (i*3+3) 0 ≠ obj := by
  rw [show (([1, r, theta, x] : List ℚ).getD 0 0) = 1 from rfl, pyRound_one]
  intro i hi
  have h1 : ((1:ℤ)).toNat = 1 := rfl
  rw [h1] at hi
  have h0 : i = 0 := by omega
  subst h0
  exact hx

theorem match_single_frame (r theta obj : ℚ) :
    ∃ i < (pyRound (([1, r, theta, obj] : List ℚ).getD 0 0)).toNat,
      ([1, r, theta, obj] : List ℚ).getD (i*3+3) 0 = obj := by
  refine ⟨0, ?_, rfl⟩
  rw [show (([1, r, theta, obj] : List ℚ).getD 0 0) = 1 from rfl, pyRound_one]
  norm_num

/-! ## PID controller lemmas -/

theorem PIDController_v (v_0 theta_ref theta_hat prev_e prev_int delta_t : ℚ)
    (gains : ℚ × ℚ × ℚ) :
    (PIDController v_0 theta_ref theta_hat prev_e prev_int delta_t gains).1 =
      v_0 := rfl

theorem PIDController_e_int (v_0 theta_ref theta_hat prev_e prev_int delta_t : ℚ)
    (gains : ℚ × ℚ × ℚ) :
    (PIDController v_0 theta_ref theta_hat prev_e prev_int delta_t gains).2.2.2.1 =
      max (min (prev_int + (theta_ref - theta_hat) * delta_t) INT_MAX)
        (-INT_MAX) := rfl

theorem clamp_abs_le (x : ℚ) : |max (min x INT_MAX) (-INT_MAX)| ≤ INT_MAX := by
  rw [abs_le]
  refine ⟨le_max_right _ _, max_le (min_le_right _ _) ?_⟩
  norm_num [INT_MAX]

theorem clamp_eq_clampSpec (x : ℚ) :
    max (min x INT_MAX) (-INT_MAX) = clampSpec (-(4/100)) (4/100) x := by
  have h4 : INT_MAX = 4/100 := rfl
  rw [h4, clampSpec, max_def, min_def]
  split_ifs <;> linarith

theorem offset_eq_signSpec (x : ℚ) :
    (if x > 0 then x + OMEGA_OFFSET else if x < 0 then x - OMEGA_OFFSET else x) =
      x + signSpec x * OMEGA_OFFSET := by
  rw [signSpec]
  split_ifs <;> ring

/-- C2: for every input with `delta_t > 0`, `PIDController` returns
exactly `(v0, omega, e, e_int, e_der)` with `e = theta_ref - theta_hat`,
`e_int = clamp(prev_int + e*delta_t, -0.04, +0.04)`,
`e_der = (e - prev_e)/delta_t`,
`omega = Kp*e + Ki*e_int + Kd*e_der + sign(omega)*omega_offset`
(the offset only when the pre-offset omega is nonzero); `v0` is
returned unchanged — i.e. it coincides with the spec-side `PIDSpec`. -/
theorem PIDController_functional_spec
    (v_0 theta_ref theta_hat prev_e prev_int delta_t Kp Ki Kd : ℚ)
    (hdt : 0 < delta_t) :
    PIDController v_0 theta_ref theta_hat prev_e prev_int delta_t (Kp, Ki, Kd) =
      PIDSpec v_0 theta_ref theta_hat prev_e prev_int delta_t Kp Ki Kd := by
  simp only [PIDController, PIDSpec]
  rw [clamp_eq_clampSpec, offset_eq_signSpec]

theorem PIDController_functional_spec_witness :
    (0:ℚ) < 1 ∧
      PIDController (2/100) 0 (1/2) 0 0 1 (HEADING_KP, HEADING_KI, HEADING_KD) =
        PIDSpec (2/100) 0 (1/2) 0 0 1 HEADING_KP HEADING_KI HEADING_KD :=
  ⟨by norm_num,
   PIDController_functional_spec (2/100) 0 (1/2) 0 0 1
     HEADING_KP HEADING_KI HEADING_KD (by norm_num)⟩

/-- C6: for every sequence of PID calls threading `e_int` forward,
the integral term stays within `[-0.04, 0.04]` after every call (any
nonempty call sequence, from any starting state, ends in range; in
particular every intermediate value of a run started at 0 is the
final value of such a sequence). -/
theorem pid_integral_always_clamped (v_0 theta_ref delta_t : ℚ)
    (gains : ℚ × ℚ × ℚ) (theta : ℚ) (thetas : List ℚ) (init_e init_int : ℚ) :
    |(pidIter v_0 theta_ref delta_t gains (theta :: thetas) init_e init_int).2| ≤
      4/100 := by
  induction thetas generalizing theta init_e init_int with
  | nil =>
      have h := clamp_abs_le
        (init_int + (theta_ref - theta) * delta_t)
      simpa [pidIter, PIDController, INT_MAX] using h
  | cons theta' thetas ih =>
      have hstep :
          pidIter v_0 theta_ref delta_t gains (theta :: theta' :: thetas)
              init_e init_int =
            pidIter v_0 theta_ref delta_t gains (theta' :: thetas)
              (PIDController v_0 theta_ref theta init_e init_int delta_t
                gains).2.2.1
              (PIDController v_0 theta_ref theta init_e init_int delta_t
                gains).2.2.2.1 := rfl
      rw [hstep]
      exact ih theta' _ _

/-! ## `scanning` lemmas -/

theorem scanning_of_noMatch (car : Twist2DStamped) (ns : State)
    (data : List ℚ) (obj omega : ℚ)
    (h : ∀ i < (pyRound (data.getD 0 0)).toNat, data.getD (i*3+3) 0 ≠ obj) :
    scanning car ns data obj omega = ({ v := 0, omega := omega }, ns) := by
  unfold scanning
  apply foldl_fixed
  intro i hi acc
  exact if_neg (h i (List.mem_range.mp hi))

theorem scanning_of_match (car : Twist2DStamped) (ns : State)
    (data : List ℚ) (obj omega : ℚ)
    (h : ∃ i < (pyRound (data.getD 0 0)).toNat, data.getD (i*3+3) 0 = obj) :
    scanning car ns data obj omega = ({ v := 0, omega := 0 }, State.IDENTIFIED) := by
  unfold scanning
  obtain ⟨i, hi, hm⟩ := h
  refine foldl_reaches _
    (fun acc : Twist2DStamped × State =>
      acc = ({ v := 0, omega := 0 }, State.IDENTIFIED))
    (fun j => data.getD (j*3+3) 0 = obj) ?_ ?_ _ _
    ⟨i, List.mem_range.mpr hi, hm⟩
  · intro acc j hacc
    subst hacc
    by_cases hj : data.getD (j*3+3) 0 = obj
    · show (if _ then _ else _) = _
      rw [if_pos hj]
    · show (if _ then _ else _) = _
      rw [if_neg hj]
  · intro acc j hj
    show (if _ then _ else _) = _
    rw [if_pos hj]

/-- C7: in the SCANNING state, the transition to IDENTIFIED fires iff
some detection in the current frame has identity equal to the target;
on the triggering frame the command is exactly `{v: 0, omega: 0}`, and
on every non-triggering frame the command is `v = 0` with the scanning
angular rate passed by the caller. -/
theorem scanning_transition_spec (car : Twist2DStamped) (data : List ℚ)
    (obj omega : ℚ) :
    ((scanning car State.SCANNING data obj omega).2 = State.IDENTIFIED ↔
      ∃ i < (pyRound (data.getD 0 0)).toNat, data.getD (i*3+3) 0 = obj) ∧
    ((∃ i < (pyRound (data.getD 0 0)).toNat, data.getD (i*3+3) 0 = obj) →
      scanning car State.SCANNING data obj omega =
        ({ v := 0, omega := 0 }, State.IDENTIFIED)) ∧
    ((∀ i < (pyRound (data.getD 0 0)).toNat, data.getD (i*3+3) 0 ≠ obj) →
      scanning car State.SCANNING data obj omega =
        ({ v := 0, omega := omega }, State.SCANNING)) := by
  refine ⟨?_, fun h => scanning_of_match car _ data obj omega h,
    fun h => scanning_of_noMatch car _ data obj omega h⟩
  constructor
  · intro hst
    by_contra hno
    push_neg at hno
    rw [scanning_of_noMatch car _ data obj omega hno] at hst
    exact State.noConfusion hst
  · intro h
    rw [scanning_of_match car _ data obj omega h]

theorem scanning_transition_spec_witness :
    scanning { v := 0, omega := 0 } State.SCANNING [1, 1, 2, 7] 7 (3/10) =
      ({ v := 0, omega := 0 }, State.IDENTIFIED) :=
  (scanning_transition_spec { v := 0, omega := 0 } [1, 1, 2, 7] 7 (3/10)).2.1
    ⟨0, by rw [show (([1, 1, 2, 7] : List ℚ).getD 0 0) = 1 from rfl,
      pyRound_one]; norm_num, rfl⟩

/-! ## `approach` lemmas -/

theorem approachStep_noMatch (data : List ℚ) (obj pe pi dt : ℚ)
    (delivery : Bool) (acc : ApproachAcc) (i : ℕ)
    (hm : data.getD (i*3+3) 0 ≠ obj) :
    approachStep data obj pe pi dt delivery acc i = acc := by
  unfold approachStep
  rw [if_neg hm]

theorem approachStep_match_fields (data : List ℚ) (obj pe pi dt : ℚ)
    (delivery : Bool) (acc : ApproachAcc) (i : ℕ)
    (hm : data.getD (i*3+3) 0 = obj) :
    (approachStep data obj pe pi dt delivery acc i).obj_ids =
        acc.obj_ids ++ [obj] ∧
    (approachStep data obj pe pi dt delivery acc i).no_det_count = 0 ∧
    ((approachStep data obj pe pi dt delivery acc i).new_state = acc.new_state ∨
      (approachStep data obj pe pi dt delivery acc i).new_state =
        State.CAPTURED) := by
  simp only [approachStep]
  rw [if_pos hm]
  split_ifs <;> simp

theorem approach_foldl_noMatch (data : List ℚ) (obj pe pi dt : ℚ)
    (delivery : Bool) (init : ApproachAcc)
    (h : ∀ i < (pyRound (data.getD 0 0)).toNat, data.getD (i*3+3) 0 ≠ obj) :
    (List.range (pyRound (data.getD 0 0)).toNat).foldl
      (approachStep data obj pe pi dt delivery) init = init := by
  apply foldl_fixed
  intro i hi acc
  exact approachStep_noMatch data obj pe pi dt delivery acc i
    (h i (List.mem_range.mp hi))

theorem approach_foldl_mem (data : List ℚ) (obj pe pi dt : ℚ)
    (delivery : Bool) (init : ApproachAcc)
    (h : ∃ i < (pyRound (data.getD 0 0)).toNat, data.getD (i*3+3) 0 = obj) :
    obj ∈ ((List.range (pyRound (data.getD 0 0)).toNat).foldl
        (approachStep data obj pe pi dt delivery) init).obj_ids ∧
    ((List.range (pyRound (data.getD 0 0)).toNat).foldl
        (approachStep data obj pe pi dt delivery) init).no_det_count = 0 := by
  obtain ⟨i, hi, hm⟩ := h
  refine foldl_reaches _
    (fun acc : ApproachAcc => obj ∈ acc.obj_ids ∧ acc.no_det_count = 0)
    (fun j => data.getD (j*3+3) 0 = obj) ?_ ?_ _ _
    ⟨i, List.mem_range.mpr hi, hm⟩
  · intro acc j hP
    by_cases hj : data.getD (j*3+3) 0 = obj
    · have hf := approachStep_match_fields data obj pe pi dt delivery acc j hj
      refine ⟨hf.1 ▸ ?_, hf.2.1⟩
      simp
    · rw [approachStep_noMatch data obj pe pi dt delivery acc j hj]
      exact hP
  · intro acc j hj
    have hf := approachStep_match_fields data obj pe pi dt delivery acc j hj
    refine ⟨hf.1 ▸ ?_, hf.2.1⟩
    simp

theorem approach_foldl_state (data : List ℚ) (obj pe pi dt : ℚ)
    (delivery : Bool) (init : ApproachAcc) :
    ((List.range (pyRound (data.getD 0 0)).toNat).foldl
        (approachStep data obj pe pi dt delivery) init).new_state =
      init.new_state ∨
    ((List.range (pyRound (data.getD 0 0)).toNat).foldl
        (approachStep data obj pe pi dt delivery) init).new_state =
      State.CAPTURED := by
  refine foldl_preserves _
    (fun acc : ApproachAcc =>
      acc.new_state = init.new_state ∨ acc.new_state = State.CAPTURED)
    ?_ _ _ (Or.inl rfl)
  intro acc j hP
  by_cases hj : data.getD (j*3+3) 0 = obj
  · have hf := approachStep_match_fields data obj pe pi dt delivery acc j hj
    rcases hf.2.2 with h1 | h1
    · rw [h1]; exact hP
    · exact Or.inr h1
  · rw [approachStep_noMatch data obj pe pi dt delivery acc j hj]
    exact hP

theorem approach_of_noMatch (car : Twist2DStamped) (ns : State)
    (data : List ℚ) (obj pe pi dt : ℚ) (nd cc : ℕ) (v : ℚ) (delivery : Bool)
    (h : ∀ i < (pyRound (data.getD 0 0)).toNat, data.getD (i*3+3) 0 ≠ obj) :
    approach car ns data obj pe pi dt nd cc v delivery =
      ({ v := 0, omega := 0 },
       (if nd + 1 ≥ 4 then State.SCANNING else ns), pe, pi,
       (if nd + 1 ≥ 4 then 0 else nd + 1), cc) := by
  simp only [approach]
  rw [approach_foldl_noMatch data obj pe pi dt delivery _ h]
  simp only [List.not_mem_nil, if_false, if_neg (fun hmem => hmem)]
  split_ifs <;> rfl

theorem approach_of_match (car : Twist2DStamped) (ns : State)
    (data : List ℚ) (obj pe pi dt : ℚ) (nd cc : ℕ) (v : ℚ) (delivery : Bool)
    (h : ∃ i < (pyRound (data.getD 0 0)).toNat, data.getD (i*3+3) 0 = obj) :
    (approach car ns data obj pe pi dt nd cc v delivery).2.2.2.2.1 = 0 ∧
    ((approach car ns data obj pe pi dt nd cc v delivery).2.1 = ns ∨
     (approach car ns data obj pe pi dt nd cc v delivery).2.1 =
       State.CAPTURED) := by
  have hmem := approach_foldl_mem data obj pe pi dt delivery
    { car_control_msg := car, new_state := ns, v := v, e := pe, e_int := pi,
      no_det_count := nd, close_count := cc, obj_ids := [] } h
  have hst := approach_foldl_state data obj pe pi dt delivery
    { car_control_msg := car, new_state := ns, v := v, e := pe, e_int := pi,
      no_det_count := nd, close_count := cc, obj_ids := [] }
  simp only [approach]
  rw [if_pos hmem.1]
  exact ⟨hmem.2, hst⟩

/-- C10 counterexample: on the 4th consecutive no-detection frame
(`no_det_count` entering at 3), `approach` also changes the state
(IDENTIFIED → SCANNING), so the PID state and `close_count` are not
the only unaffected data with only `no_detection_count` and the
command changing — the state changes too. -/
theorem approach_no_match_state_change_cex :
    (approach { v := 0, omega := 0 } State.IDENTIFIED [0] 7 0 0 1 3 5
        (2/100) false).2.1 = State.SCANNING ∧
    State.SCANNING ≠ State.IDENTIFIED := by
  constructor
  · rw [approach_of_noMatch _ _ _ _ _ _ _ _ _ _ _ (noMatch_nil_frame 7)]
    rfl
  · simp

/-- C10 amended: for every frame processed by `approach` in which no
detection matches the target, the returned PID state is unchanged
(`e = prev_e`, `e_int = prev_int`), `close_count` is unchanged, the
command is forced to zero/zero, and `no_detection_count` is
incremented (reset to 0, with the state moving to SCANNING, when it
reaches 4) — so besides `no_detection_count` and the command, only the
state (and only on the 4th consecutive missing frame) is affected. -/
theorem approach_no_match_frame_effect (car : Twist2DStamped) (ns : State)
    (data : List ℚ) (obj pe pi dt : ℚ) (nd cc : ℕ) (v : ℚ) (delivery : Bool)
    (h : ∀ i < (pyRound (data.getD 0 0)).toNat, data.getD (i*3+3) 0 ≠ obj) :
    approach car ns data obj pe pi dt nd cc v delivery =
      ({ v := 0, omega := 0 },
       (if nd + 1 ≥ 4 then State.SCANNING else ns), pe, pi,
       (if nd + 1 ≥ 4 then 0 else nd + 1), cc) :=
  approach_of_noMatch car ns data obj pe pi dt nd cc v delivery h

theorem approach_no_match_frame_effect_witness :
    approach { v := 0, omega := 0 } State.IDENTIFIED [1, 1/2, 0, 3] 7 (1/2)
        (1/100) 1 0 6 (2/100) false =
      ({ v := 0, omega := 0 }, State.IDENTIFIED, 1/2, 1/100, 1, 6) := by
  rw [approach_no_match_frame_effect { v := 0, omega := 0 } State.IDENTIFIED
    [1, 1/2, 0, 3] 7 (1/2) (1/100) 1 0 6 (2/100) false
    (noMatch_single_frame (1/2) 0 3 7 (by norm_num))]
  rfl

/-- C5: in the IDENTIFIED state, the transition back to SCANNING
occurs when and only when a 4th consecutive frame contains no
detection matching the target (entering `no_detection_count = 3` with
the counter having been reset to 0 by any matching frame and
incremented by each missing frame); each missing frame forces a
zero/zero command and the counter is reset to 0 on the transition,
while a frame with a matching detection leaves `no_detection_count`
at 0. -/
theorem approach_scanning_transition_spec (car : Twist2DStamped)
    (data : List ℚ) (obj pe pi dt : ℚ) (nd cc : ℕ) (v : ℚ) (delivery : Bool)
    (hnd : nd ≤ 3) :
    ((approach car State.IDENTIFIED data obj pe pi dt nd cc v delivery).2.1 =
        State.SCANNING ↔
      (∀ i < (pyRound (data.getD 0 0)).toNat, data.getD (i*3+3) 0 ≠ obj) ∧
        nd = 3) ∧
    ((∀ i < (pyRound (data.getD 0 0)).toNat, data.getD (i*3+3) 0 ≠ obj) →
      approach car State.IDENTIFIED data obj pe pi dt nd cc v delivery =
        ({ v := 0, omega := 0 },
         (if nd = 3 then State.SCANNING else State.IDENTIFIED), pe, pi,
         (if nd = 3 then 0 else nd + 1), cc)) ∧
    ((∃ i < (pyRound (data.getD 0 0)).toNat, data.getD (i*3+3) 0 = obj) →
      (approach car State.IDENTIFIED data obj pe pi dt nd cc v
          delivery).2.2.2.2.1 = 0) := by
  have h43 : (nd + 1 ≥ 4) ↔ nd = 3 := by omega
  refine ⟨⟨?_, ?_⟩, ?_, ?_⟩
  · intro hst
    by_cases hno : ∀ i < (pyRound (data.getD 0 0)).toNat,
        data.getD (i*3+3) 0 ≠ obj
    · refine ⟨hno, ?_⟩
      rw [approach_of_noMatch car State.IDENTIFIED data obj pe pi dt nd cc v
        delivery hno] at hst
      have hst' : (if nd + 1 ≥ 4 then State.SCANNING else State.IDENTIFIED) =
          State.SCANNING := hst
      by_contra h3
      rw [if_neg (fun hx => h3 (h43.mp hx))] at hst'
      exact State.noConfusion hst'
    · push_neg at hno
      have hm := approach_of_match car State.IDENTIFIED data obj pe pi dt nd
        cc v delivery hno
      rcases hm.2 with h1 | h1 <;> rw [hst] at h1 <;> exact State.noConfusion h1
  · rintro ⟨hno, h3⟩
    rw [approach_of_noMatch car State.IDENTIFIED data obj pe pi dt nd cc v
      delivery hno]
    show (if nd + 1 ≥ 4 then State.SCANNING else State.IDENTIFIED) =
      State.SCANNING
    rw [if_pos (h43.mpr h3)]
  · intro hno
    rw [approach_of_noMatch car State.IDENTIFIED data obj pe pi dt nd cc v
      delivery hno]
    by_cases h3 : nd = 3
    · rw [if_pos (h43.mpr h3), if_pos (h43.mpr h3), if_pos h3, if_pos h3]
    · rw [if_neg (fun hx => h3 (h43.mp hx)),
        if_neg (fun hx => h3 (h43.mp hx)), if_neg h3, if_neg h3]
  · intro hex
    exact (approach_of_match car State.IDENTIFIED data obj pe pi dt nd cc v
      delivery hex).1

theorem approach_scanning_transition_spec_witness :
    approach { v := 0, omega := 0 } State.IDENTIFIED [0] 7 0 0 1 3 6 (2/100)
        false =
      ({ v := 0, omega := 0 }, State.SCANNING, 0, 0, 0, 6) := by
  have h := (approach_scanning_transition_spec { v := 0, omega := 0 } [0] 7 0 0
    1 3 6 (2/100) false (by norm_num)).2.1 (noMatch_nil_frame 7)
  simpa using h

/-! ## Single-detection frames: `[1, r, theta, id]` -/

theorem approach_single_frame_acc (car : Twist2DStamped) (ns : State)
    (r theta obj pe pi dt : ℚ) (nd cc : ℕ) (v : ℚ) (delivery : Bool) :
    approach car ns [1, r, theta, obj] obj pe pi dt nd cc v delivery =
      (let acc := approachStep [1, r, theta, obj] obj pe pi dt delivery
        { car_control_msg := car, new_state := ns, v := v, e := pe,
          e_int := pi, no_det_count := nd, close_count := cc,
          obj_ids := [] } 0
       (acc.car_control_msg, acc.new_state, acc.e, acc.e_int,
        acc.no_det_count, acc.close_count)) := by
  have hb : (pyRound (([1, r, theta, obj] : List ℚ).getD 0 0)).toNat = 1 := by
    rw [show (([1, r, theta, obj] : List ℚ).getD 0 0) = 1 from rfl,
      pyRound_one]
    rfl
  have hmem := (approachStep_match_fields [1, r, theta, obj] obj pe pi dt
    delivery
    { car_control_msg := car, new_state := ns, v := v, e := pe, e_int := pi,
      no_det_count := nd, close_count := cc, obj_ids := [] } 0 rfl).1
  simp only [approach, hb, show List.range 1 = [0] from rfl, List.foldl_cons,
    List.foldl_nil]
  rw [if_pos (hmem ▸ (by simp : obj ∈ ([] : List ℚ) ++ [obj]))]

theorem approach_single_frame_v (car : Twist2DStamped) (ns : State)
    (r theta obj pe pi dt : ℚ) (nd cc : ℕ) (v : ℚ) (delivery : Bool) :
    (approach car ns [1, r, theta, obj] obj pe pi dt nd cc v delivery).1.v =
      if r > 25/100 then v
      else if r ≤ 25/100 ∧ r > (if delivery = true then (2:ℚ)/10 else 16/100)
        then 8/10 * v
      else 0 := by
  rw [approach_single_frame_acc]
  simp only [approachStep, if_pos (show ([1, r, theta, obj] : List ℚ).getD
    (0*3+3) 0 = obj from rfl),
    show ([1, r, theta, obj] : List ℚ).getD (0*3+1) 0 = r from rfl,
    show ([1, r, theta, obj] : List ℚ).getD (0*3+2) 0 = theta from rfl]
  split_ifs <;> rfl

theorem approach_single_frame_close (car : Twist2DStamped) (ns : State)
    (r theta obj pe pi dt : ℚ) (nd cc : ℕ) (v : ℚ) (delivery : Bool) :
    (approach car ns [1, r, theta, obj] obj pe pi dt nd cc v
        delivery).2.2.2.2.2 =
      if r > 25/100 then 0
      else if r ≤ 25/100 ∧ r > (if delivery = true then (2:ℚ)/10 else 16/100)
        then 0
      else if (if |(PIDController v 0 theta pe pi dt
            (HEADING_KP, HEADING_KI, HEADING_KD)).2.1 * OMEGA_SCALING| <
            OMEGA_OFFSET + 65/1000 then cc + 1 else cc) ≥ 8 then 0
      else (if |(PIDController v 0 theta pe pi dt
            (HEADING_KP, HEADING_KI, HEADING_KD)).2.1 * OMEGA_SCALING| <
            OMEGA_OFFSET + 65/1000 then cc + 1 else cc) := by
  rw [approach_single_frame_acc]
  simp only [approachStep, if_pos (show ([1, r, theta, obj] : List ℚ).getD
    (0*3+3) 0 = obj from rfl),
    show ([1, r, theta, obj] : List ℚ).getD (0*3+1) 0 = r from rfl,
    show ([1, r, theta, obj] : List ℚ).getD (0*3+2) 0 = theta from rfl]
  split_ifs <;> rfl

theorem approach_single_frame_state (car : Twist2DStamped) (ns : State)
    (r theta obj pe pi dt : ℚ) (nd cc : ℕ) (v : ℚ) (delivery : Bool) :
    (approach car ns [1, r, theta, obj] obj pe pi dt nd cc v delivery).2.1 =
      if r > 25/100 then ns
      else if r ≤ 25/100 ∧ r > (if delivery = true then (2:ℚ)/10 else 16/100)
        then ns
      else if (if |(PIDController v 0 theta pe pi dt
            (HEADING_KP, HEADING_KI, HEADING_KD)).2.1 * OMEGA_SCALING| <
            OMEGA_OFFSET + 65/1000 then cc + 1 else cc) ≥ 8
        then State.CAPTURED
      else ns := by
  rw [approach_single_frame_acc]
  simp only [approachStep, if_pos (show ([1, r, theta, obj] : List ℚ).getD
    (0*3+3) 0 = obj from rfl),
    show ([1, r, theta, obj] : List ℚ).getD (0*3+1) 0 = r from rfl,
    show ([1, r, theta, obj] : List ℚ).getD (0*3+2) 0 = theta from rfl]
  split_ifs <;> rfl

/-- C8: for a frame whose single detection matches the target, the
range bands have the stated inclusivity: `r > 0.25` gives `v`,
`r = 0.25` exactly selects the `0.8*v` band (upper-inclusive test
`r ≤ 0.25`), `r = r_0` exactly selects the stop band (`v = 0`), and
`r_0 = 0.2` when `delivery` is true and `0.16` otherwise. -/
theorem approach_band_boundaries (car : Twist2DStamped) (ns : State)
    (theta obj pe pi dt : ℚ) (nd cc : ℕ) (v : ℚ) (delivery : Bool) :
    (∀ r : ℚ,
      (approach car ns [1, r, theta, obj] obj pe pi dt nd cc v delivery).1.v =
        if r > 25/100 then v
        else if r > (if delivery = true then (2:ℚ)/10 else 16/100)
          then 8/10 * v
        else 0) ∧
    (approach car ns [1, 25/100, theta, obj] obj pe pi dt nd cc v
        delivery).1.v = 8/10 * v ∧
    (approach car ns [1, (if delivery = true then (2:ℚ)/10 else 16/100),
        theta, obj] obj pe pi dt nd cc v delivery).1.v = 0 := by
  have hr0le : (if delivery = true then (2:ℚ)/10 else 16/100) ≤ 25/100 := by
    split_ifs <;> norm_num
  have hr0lt : (if delivery = true then (2:ℚ)/10 else 16/100) < 25/100 := by
    split_ifs <;> norm_num
  have hmain : ∀ r : ℚ,
      (approach car ns [1, r, theta, obj] obj pe pi dt nd cc v delivery).1.v =
        if r > 25/100 then v
        else if r > (if delivery = true then (2:ℚ)/10 else 16/100)
          then 8/10 * v
        else 0 := by
    intro r
    rw [approach_single_frame_v]
    by_cases h1 : r > 25/100
    · rw [if_pos h1, if_pos h1]
    · rw [if_neg h1, if_neg h1]
      by_cases h2 : r > (if delivery = true then (2:ℚ)/10 else 16/100)
      · rw [if_pos ⟨le_of_not_lt h1, h2⟩, if_pos h2]
      · rw [if_neg (fun hc => h2 hc.2), if_neg h2]
  refine ⟨hmain, ?_, ?_⟩
  · rw [hmain (25/100), if_neg (by norm_num), if_pos hr0lt]
  · rw [hmain _, if_neg (not_lt.mpr hr0le), if_neg (lt_irrefl _)]

/-- C3 counterexample: a disqualifying frame (target detected with
`r = 0.1 ≤ r_0 = 0.16` but control action not small:
`|omega * scaling| = 0.393 ≥ omega_offset + 0.065 = 0.165`) does not
reset `close_count`: entering with `close_count = 5`, `approach`
returns `close_count = 5`, not 0. -/
theorem approach_close_count_no_reset_cex :
    (approach { v := 0, omega := 0 } State.IDENTIFIED [1, 1/10, -1, 7] 7 0 0 1
        0 5 (1/50) false).2.2.2.2.2 = 5 ∧ (5:ℕ) ≠ 0 := by
  refine ⟨?_, by norm_num⟩
  rw [approach_single_frame_close]
  norm_num [PIDController, HEADING_KP, HEADING_KI, HEADING_KD, INT_MAX,
    OMEGA_OFFSET, OMEGA_SCALING, min_def, max_def, abs_lt]

/-- C3 amended: in the IDENTIFIED (or DELIVERING) state, on a frame
whose detection matches the target with `r ≤ r_0`, `close_count`
increments exactly when `|omega*scaling| < omega_offset + 0.065` and
is left unchanged (not reset) on a disqualifying close frame; the
transition to CAPTURED fires exactly when the counter reaches 8, with
`close_count` reset to 0 on the triggering transition; the counter is
reset to 0 by frames with `r > r_0`, so the 8 qualifying frames need
not be consecutive. -/
theorem approach_captured_transition_spec (car : Twist2DStamped) (ns : State)
    (r theta obj pe pi dt : ℚ) (nd cc : ℕ) (v : ℚ) (delivery : Bool)
    (hcc : cc < 8)
    (hr : r ≤ (if delivery = true then (2:ℚ)/10 else 16/100)) :
    ((approach car ns [1, r, theta, obj] obj pe pi dt nd cc v
        delivery).2.2.2.2.2 =
      if |(PIDController v 0 theta pe pi dt
            (HEADING_KP, HEADING_KI, HEADING_KD)).2.1 * OMEGA_SCALING| <
          OMEGA_OFFSET + 65/1000
      then (if cc + 1 ≥ 8 then 0 else cc + 1) else cc) ∧
    ((approach car ns [1, r, theta, obj] obj pe pi dt nd cc v delivery).2.1 =
      if |(PIDController v 0 theta pe pi dt
            (HEADING_KP, HEADING_KI, HEADING_KD)).2.1 * OMEGA_SCALING| <
          OMEGA_OFFSET + 65/1000 ∧ cc + 1 ≥ 8
      then State.CAPTURED else ns) ∧
    (∀ r' : ℚ, r' > (if delivery = true then (2:ℚ)/10 else 16/100) →
      (approach car ns [1, r', theta, obj] obj pe pi dt nd cc v
          delivery).2.2.2.2.2 = 0) := by
  have hn25 : ¬ (r > 25/100) := by
    refine not_lt.mpr (le_trans hr ?_)
    split_ifs <;> norm_num
  have hn2 : ¬ (r ≤ 25/100 ∧
      r > (if delivery = true then (2:ℚ)/10 else 16/100)) :=
    fun hc => absurd hc.2 (not_lt.mpr hr)
  refine ⟨?_, ?_, ?_⟩
  · rw [approach_single_frame_close, if_neg hn25, if_neg hn2]
    by_cases hs : |(PIDController v 0 theta pe pi dt
        (HEADING_KP, HEADING_KI, HEADING_KD)).2.1 * OMEGA_SCALING| <
        OMEGA_OFFSET + 65/1000
    · simp only [if_pos hs]
    · simp only [if_neg hs]
      rw [if_neg (by omega : ¬ cc ≥ 8)]
  · rw [approach_single_frame_state, if_neg hn25, if_neg hn2]
    by_cases hs : |(PIDController v 0 theta pe pi dt
        (HEADING_KP, HEADING_KI, HEADING_KD)).2.1 * OMEGA_SCALING| <
        OMEGA_OFFSET + 65/1000
    · simp only [if_pos hs]
      by_cases h8 : cc + 1 ≥ 8
      · rw [if_pos h8, if_pos ⟨hs, h8⟩]
      · rw [if_neg h8, if_neg (fun hc => h8 hc.2)]
    · simp only [if_neg hs]
      rw [if_neg (by omega : ¬ cc ≥ 8), if_neg (fun hc => hs hc.1)]
  · intro r' hr'
    rw [approach_single_frame_close]
    by_cases h1 : r' > 25/100
    · rw [if_pos h1]
    · rw [if_neg h1, if_pos ⟨le_of_not_lt h1, hr'⟩]

theorem approach_captured_transition_spec_witness :
    (approach { v := 0, omega := 0 } State.IDENTIFIED [1, 1/10, 0, 7] 7 0 0 1
        0 3 (1/50) false).2.2.2.2.2 = 4 := by
  have h := (approach_captured_transition_spec { v := 0, omega := 0 }
    State.IDENTIFIED (1/10) 0 7 0 0 1 0 3 (1/50) false (by norm_num)
    (by norm_num)).1
  rw [h]
  norm_num [PIDController, HEADING_KP, HEADING_KI, HEADING_KD, INT_MAX,
    OMEGA_OFFSET, OMEGA_SCALING, min_def, max_def, abs_lt]

/-! ## Object-detection node lemmas -/

theorem nodeStep_image_latched {α β γ : Type} (FB : α → Bool) (FC : β → Bool)
    (FS : γ → Bool) (N : ℕ) (v : ℚ) (s : NodeState)
    (ev : PerceptionEvent α β γ) (hs : s.avoid_duckies = true)
    (hev : ev.isImage = true) :
    (nodeStep FB FC FS N v s ev).1.avoid_duckies = true ∧
    ∀ c ∈ (nodeStep FB FC FS N v s ev).2, c.v = 0 := by
  cases ev with
  | episode_start => simp [PerceptionEvent.isImage] at hev
  | image d bb cl sc =>
      simp only [nodeStep]
      split_ifs with h0 h1 hd <;>
        constructor <;> simp_all [pub_car_commands]

theorem runNode_latched {α β γ : Type} (FB : α → Bool) (FC : β → Bool)
    (FS : γ → Bool) (N : ℕ) (v : ℚ) :
    ∀ (evs : List (PerceptionEvent α β γ)) (s : NodeState),
      s.avoid_duckies = true → evs.all PerceptionEvent.isImage = true →
      (runNode FB FC FS N v s evs).1.avoid_duckies = true ∧
      ∀ c ∈ (runNode FB FC FS N v s evs).2, c.v = 0 := by
  intro evs
  induction evs with
  | nil =>
      intro s hs _
      exact ⟨hs, by simp [runNode]⟩
  | cons ev evs ih =>
      intro s hs hall
      rw [List.all_cons, Bool.and_eq_true] at hall
      have hstep := nodeStep_image_latched FB FC FS N v s ev hs hall.1
      have hrest := ih (nodeStep FB FC FS N v s ev).1 hstep.1 hall.2
      refine ⟨hrest.1, ?_⟩
      intro c hc
      simp only [runNode, List.mem_append] at hc
      rcases hc with hc | hc
      · exact hstep.2 c hc
      · exact hrest.2 c hc

/-- C1: once a processed frame (initialized node, frame counter in the
processing slot, image decoded) yields `det2bool = true` — a non-empty
intersection of the class, bounding-box and score filter masks — the
stop latch `avoid_duckies` is set; from any state with the latch set,
running any sequence of camera events (no episode-start) keeps the
latch set and every command published has `linear_velocity = 0`; the
episode-start callback resets the latch to false. -/
theorem stop_latch_spec {α β γ : Type} (FB : α → Bool) (FC : β → Bool)
    (FS : γ → Bool) (N : ℕ) (v : ℚ) (s : NodeState)
    (evs : List (PerceptionEvent α β γ))
    (hs : s.avoid_duckies = true)
    (himg : evs.all PerceptionEvent.isImage = true) :
    ((runNode FB FC FS N v s evs).1.avoid_duckies = true ∧
     ∀ c ∈ (runNode FB FC FS N v s evs).2, c.v = 0) ∧
    (∀ t : NodeState, (nodeStep FB FC FS N v t
        PerceptionEvent.episode_start).1.avoid_duckies = false) ∧
    (∀ (t : NodeState) (bb : List α) (cl : List β) (sc : List γ),
      t.initialized = true →
      (t.frame_id + 1) % (1 + N) = 0 →
      det2bool FB FC FS bb cl sc = true →
      (nodeStep FB FC FS N v t
        (PerceptionEvent.image true bb cl sc)).1.avoid_duckies = true) := by
  refine ⟨runNode_latched FB FC FS N v evs s hs himg, fun t => rfl, ?_⟩
  intro t bb cl sc hinit hfid hdet
  simp only [nodeStep]
  rw [if_neg (by simp [hinit]), if_neg (by simp [hfid]),
    if_neg (by simp : ¬ (true = false))]
  simp [hdet]

theorem stop_latch_spec_witness :
    (runNode (fun _ : ℕ => true) (fun _ : ℕ => true) (fun _ : ℕ => true) 0
        (1/25) { initialized := true, avoid_duckies := true, frame_id := 0 }
        [PerceptionEvent.image true [0] [0] [0]]).1.avoid_duckies = true :=
  (stop_latch_spec (fun _ : ℕ => true) (fun _ : ℕ => true) (fun _ : ℕ => true)
    0 (1/25) { initialized := true, avoid_duckies := true, frame_id := 0 }
    [PerceptionEvent.image true [0] [0] [0]] rfl rfl).1.1

/-- C4 counterexample: the command publisher of the node takes no proposed
command at all; with the latch unset it publishes `omega = 0`
unconditionally ("always drive straight"), so a proposed command with
a nonzero angular component (here `omega = 1/2`) is not passed through
unchanged as the arbiter contract of the claim requires. -/
theorem pub_car_commands_no_passthrough_cex :
    arbiterSpec false { v := 4/100, omega := 1/2 } =
      ({ v := 4/100, omega := 1/2 } : Twist2DStamped) ∧
    (pub_car_commands false (4/100)).omega = 0 ∧
    pub_car_commands false (4/100) ≠
      arbiterSpec false { v := 4/100, omega := 1/2 } := by
  refine ⟨rfl, rfl, ?_⟩
  intro h
  have homega := congrArg Twist2DStamped.omega h
  norm_num [pub_car_commands, arbiterSpec] at homega

/-- C4 amended: `pub_car_commands` outputs `{v: 0, omega: 0}` when the
stop latch is set and `{v: self.v, omega: 0}` otherwise; the angular
component is always 0 (the node always drives straight), so only the
linear component depends on the latch, and no proposed command is
passed through. -/
theorem pub_car_commands_spec (stop : Bool) (v : ℚ) :
    pub_car_commands true v = { v := 0, omega := 0 } ∧
    pub_car_commands false v = { v := v, omega := 0 } ∧
    (pub_car_commands stop v).omega = 0 :=
  ⟨rfl, rfl, rfl⟩

/-- C9 counterexample: with the node initialized and the frame counter
in the processing slot, an undecodable image makes `image_cb` return
right after the failed decode: the list of commands published on that
frame is empty, so no forced zero/zero command is published. -/
theorem image_cb_decode_failure_cex :
    (nodeStep (fun _ : ℕ => true) (fun _ : ℕ => true) (fun _ : ℕ => true) 0
        (1/25) { initialized := true, avoid_duckies := false, frame_id := 0 }
        (PerceptionEvent.image false [] [] [])).2 = [] ∧
    ({ v := 0, omega := 0 } : Twist2DStamped) ∉
      (nodeStep (fun _ : ℕ => true) (fun _ : ℕ => true) (fun _ : ℕ => true) 0
        (1/25) { initialized := true, avoid_duckies := false, frame_id := 0 }
        (PerceptionEvent.image false [] [] [])).2 := by
  constructor
  · rfl
  · rw [show (nodeStep (fun _ : ℕ => true) (fun _ : ℕ => true)
      (fun _ : ℕ => true) 0 (1/25)
      { initialized := true, avoid_duckies := false, frame_id := 0 }
      (PerceptionEvent.image false [] [] [])).2 = [] from rfl]
    simp

/-- C9 amended: when the incoming camera image cannot be decoded, the
callback catches the error and skips the frame — the node continues
(the latch and initialization flags are unchanged, only the frame
counter advances) — but it publishes no command at all on that frame
(there is no forced zero/zero command). -/
theorem image_cb_decode_failure_spec {α β γ : Type}
    (filter_by_bboxes : α → Bool) (filter_by_classes : β → Bool)
    (filter_by_scores : γ → Bool) (N : ℕ) (v : ℚ) (s : NodeState)
    (bboxes : List α) (classes : List β) (scores : List γ)
    (hinit : s.initialized = true)
    (hfid : (s.frame_id + 1) % (1 + N) = 0) :
    (nodeStep filter_by_bboxes filter_by_classes filter_by_scores N v s
        (PerceptionEvent.image false bboxes classes scores)).2 = [] ∧
    (nodeStep filter_by_bboxes filter_by_classes filter_by_scores N v s
        (PerceptionEvent.image false bboxes classes scores)).1 =
      { s with frame_id := (s.frame_id + 1) % (1 + N) } := by
  simp only [nodeStep]
  rw [if_neg (by simp [hinit]), if_neg (by simp [hfid])]
  simp

theorem image_cb_decode_failure_spec_witness :
    (nodeStep (fun _ : ℕ => true) (fun _ : ℕ => true) (fun _ : ℕ => true) 0
        (1/25) { initialized := true, avoid_duckies := true, frame_id := 0 }
        (PerceptionEvent.image false [] [] [])).2 = [] :=
  (image_cb_decode_failure_spec (fun _ : ℕ => true) (fun _ : ℕ => true)
    (fun _ : ℕ => true) 0 (1/25)
    { initialized := true, avoid_duckies := true, frame_id := 0 }
    [] [] [] rfl rfl).1

end Duckietown
